import Mathlib

/-!
Verification of the kaplay runtime core (input state machine, frame
scheduler, gamepad poller, audio mixer/scheduler) against its
natural-language specification.

The TypeScript sources are shallowly embedded: JS `Set` objects become
duplicate-free lists with `jsSetAdd` / `jsSetDel`, JS numbers become `ℚ`
(exact rational arithmetic in place of IEEE doubles), mutable handle
state becomes explicit state records, `Date.now()` / `performance.now()`
become explicit `now` parameters, and `setTimeout`-driven render chains
become a `timerActive` flag plus explicit iteration of the chunk
renderer.  Event emission is modelled by instrumentation fields
(`events` lists, `endCount` counters) that record exactly the
`state.events.trigger` / `onEndEvents.trigger` calls of the source.
-/

/-- JS `Math.min` on two (non-NaN) numbers.  Defined by an `if` so that
the kernel can evaluate it on concrete rationals. -/
def jsMin (a b : ℚ) : ℚ := if a ≤ b then a else b

/-- JS `Math.max` on two (non-NaN) numbers. -/
def jsMax (a b : ℚ) : ℚ := if a ≤ b then b else a

theorem jsMin_eq_min (a b : ℚ) : jsMin a b = min a b := by
  rw [jsMin, min_def]

theorem jsMax_eq_max (a b : ℚ) : jsMax a b = max a b := by
  rw [jsMax, max_def]

/-- JS `Set.prototype.add`: appends the element unless already present
(JS sets are insertion-ordered and duplicate-free). -/
def jsSetAdd {T : Type} [DecidableEq T] (l : List T) (x : T) : List T :=
  if x ∈ l then l else l ++ [x]

/-- JS `Set.prototype.delete`: removes the element from the set. -/
def jsSetDel {T : Type} [DecidableEq T] (l : List T) (x : T) : List T :=
  l.filter (fun y => decide (¬ y = x))

theorem mem_jsSetAdd_self {T : Type} [DecidableEq T] (l : List T) (x : T) :
    x ∈ jsSetAdd l x := by
  unfold jsSetAdd
  by_cases h : x ∈ l
  · simp [h]
  · simp [h]

theorem mem_jsSetAdd {T : Type} [DecidableEq T] (l : List T) (x y : T) :
    y ∈ jsSetAdd l x ↔ y ∈ l ∨ y = x := by
  unfold jsSetAdd
  by_cases h : x ∈ l
  · simp only [if_pos h]
    constructor
    · exact fun hy => Or.inl hy
    · rintro (hy | rfl) <;> [exact hy; exact h]
  · simp [h]

theorem not_mem_jsSetDel_self {T : Type} [DecidableEq T] (l : List T) (x : T) :
    x ∉ jsSetDel l x := by
  unfold jsSetDel
  intro h
  have := List.of_mem_filter h
  simp at this

theorem mem_jsSetDel {T : Type} [DecidableEq T] (l : List T) (x y : T) :
    y ∈ jsSetDel l x ↔ y ∈ l ∧ ¬ y = x := by
  unfold jsSetDel
  constructor
  · intro h
    refine ⟨List.mem_of_mem_filter h, ?_⟩
    have := List.of_mem_filter h
    simpa using this
  · intro ⟨h1, h2⟩
    exact List.mem_filter.2 ⟨h1, by simpa using h2⟩

/-- Embedding of `ButtonState<T>` (unnamed app source, `export class
ButtonState`): four JS sets `pressed`, `pressedRepeat`, `released`,
`down`. -/
structure ButtonState (T : Type) where
  pressed : List T
  pressedRepeat : List T
  released : List T
  down : List T
deriving DecidableEq

/-- Fresh `ButtonState` (all four sets empty), as built by the
constructor. -/
def ButtonState.init (T : Type) : ButtonState T :=
  ⟨[], [], [], []⟩

/-- `ButtonState.update()`: clears `pressed`, `released`,
`pressedRepeat` (the `down` set is untouched). -/
def ButtonState.update {T : Type} (b : ButtonState T) : ButtonState T :=
  { b with pressed := [], released := [], pressedRepeat := [] }

/-- `ButtonState.press(btn)`: adds to `pressed`, `pressedRepeat` and
`down`. -/
def ButtonState.press {T : Type} [DecidableEq T] (b : ButtonState T) (btn : T) :
    ButtonState T :=
  { b with
    pressed := jsSetAdd b.pressed btn
    pressedRepeat := jsSetAdd b.pressedRepeat btn
    down := jsSetAdd b.down btn }

/-- `ButtonState.pressRepeat(btn)`: adds to `pressedRepeat` only. -/
def ButtonState.pressRepeat {T : Type} [DecidableEq T] (b : ButtonState T)
    (btn : T) : ButtonState T :=
  { b with pressedRepeat := jsSetAdd b.pressedRepeat btn }

/-- `ButtonState.release(btn)`: deletes from `down` and `pressed`, adds
to `released`. -/
def ButtonState.release {T : Type} [DecidableEq T] (b : ButtonState T)
    (btn : T) : ButtonState T :=
  { b with
    down := jsSetDel b.down btn
    pressed := jsSetDel b.pressed btn
    released := jsSetAdd b.released btn }

/-- C7: for every `ButtonState` and symbol `s`, `press(s)` immediately
followed by `release(s)` with no intervening `update()` leaves `s` in
`released`, outside `down`, and outside `pressed`: the "pressed" edge is
retracted while the "released" edge remains. -/
theorem buttonState_press_release_same_frame {T : Type} [DecidableEq T]
    (b : ButtonState T) (s : T) :
    s ∈ ((b.press s).release s).released ∧
    s ∉ ((b.press s).release s).down ∧
    s ∉ ((b.press s).release s).pressed := by
  refine ⟨?_, ?_, ?_⟩
  · exact mem_jsSetAdd_self _ _
  · exact not_mem_jsSetDel_self _ _
  · exact not_mem_jsSetDel_self _ _

/-- C8: after `press(s)` followed by `update()`, `s` is in `down` and in
none of `pressed`, `released`, `pressedRepeat`; `update()` clears the
three transient edge sets and leaves the `down` set unchanged. -/
theorem buttonState_press_update {T : Type} [DecidableEq T]
    (b : ButtonState T) (s : T) :
    s ∈ (b.press s).update.down ∧
    s ∉ (b.press s).update.pressed ∧
    s ∉ (b.press s).update.released ∧
    s ∉ (b.press s).update.pressedRepeat ∧
    (b.press s).update.down = (b.press s).down := by
  refine ⟨mem_jsSetAdd_self _ _, ?_, ?_, ?_, rfl⟩ <;>
    simp [ButtonState.update]

/-!
Frame scheduler (unnamed app source, `function run`).  One call of the
`frame` closure is embedded as `frameTick`.  The `while
(fixedAccumulatedDt > state.fixedDt)` drain is embedded as `drainLoop`
with an explicit iteration bound `fuel`; every theorem below evaluates
strictly within the bound, so the `fuel = 0` clause is never reached on
the inputs considered.  The `fixedUpdate` callback is abstract: the
model counts its invocations.  `performance.now()/1000` readings become
the explicit `currentTime` / `lastTime` arguments.
-/

/-- State touched by one frame of `run`: the fields of the app state the
loop reads and writes (`fpsCounter.tick` feeds a frame-rate counter that
no claim observes; it is omitted). -/
structure SchedState where
  fixedDt : ℚ
  dt : ℚ
  restDt : ℚ
  time : ℚ
  realTime : ℚ
  timeScale : ℚ
  skipTime : Bool
  numFrames : ℕ
deriving DecidableEq

/-- Embedding of the drain loop `while (fixedAccumulatedDt >
state.fixedDt) { fixedAccumulatedDt -= state.fixedDt; if
(fixedAccumulatedDt < state.fixedDt) state.restDt = fixedAccumulatedDt;
fixedUpdate(); }`.  Arguments: remaining iteration bound, current
`fixedAccumulatedDt`, current `state.restDt`.  Returns the final
`fixedAccumulatedDt`, the final `state.restDt`, and the number of
`fixedUpdate()` invocations. -/
def drainLoop (fixedDt : ℚ) : ℕ → ℚ → ℚ → ℚ × ℚ × ℕ
  | 0, facc, rest => (facc, rest, 0)
  | fuel + 1, facc, rest =>
    if fixedDt < facc then
      let facc1 := facc - fixedDt
      let rest1 := if facc1 < fixedDt then facc1 else rest
      let r := drainLoop fixedDt fuel facc1 rest1
      (r.1, r.2.1, r.2.2 + 1)
    else (facc, rest, 0)

/-- Embedding of one execution of the `frame` closure body in `run`
(after the `state.stopped` / hidden early returns): clamp the measured
real elapsed time to 0.25s, derive `desiredDt` from the optional
`maxFPS` cap, accumulate, and if due and `skipTime` is unset, drain the
fixed-step accumulator and update `dt`, `restDt`, `time`, `numFrames`.
Returns the new scheduler state, the new `fixedAccumulatedDt`, the new
`accumulatedDt`, and the number of `fixedUpdate()` invocations. -/
def frameTick (maxFPS : Option ℚ) (fuel : ℕ) (currentTime lastTime : ℚ)
    (accumulatedDt fixedAccumulatedDt : ℚ) (st : SchedState) :
    SchedState × ℚ × ℚ × ℕ :=
  let realDt := jsMin (currentTime - lastTime) (1 / 4)
  let desiredDt : ℚ := match maxFPS with
    | some m => 1 / m
    | none => 0
  let st0 := { st with realTime := currentTime }
  let acc := accumulatedDt + realDt
  if desiredDt < acc then
    if st0.skipTime then
      ({ st0 with skipTime := false, numFrames := st0.numFrames + 1 },
        fixedAccumulatedDt, 0, 0)
    else
      let facc := fixedAccumulatedDt + acc
      let st1 := { st0 with dt := st0.fixedDt, restDt := 0 }
      let r := drainLoop st1.fixedDt fuel facc st1.restDt
      let st2 :=
        { st1 with
          restDt := r.1
          dt := acc
          time := st1.time + acc * st1.timeScale
          skipTime := false
          numFrames := st1.numFrames + 1 }
      (st2, r.1, 0, r.2.2)
  else (st0, fixedAccumulatedDt, acc, 0)

/-- Scheduler state as initialised by `initAppState` (`fixedDt: 1 / 50`,
everything else zeroed, `timeScale: 1`, `skipTime: false`). -/
def initSchedState : SchedState :=
  { fixedDt := 1 / 50
    dt := 0
    restDt := 0
    time := 0
    realTime := 0
    timeScale := 1
    skipTime := false
    numFrames := 0 }

/-- C4: with `fixedDt = 0.02`, a single frame whose measured elapsed
real time is 0.05s (below the 0.25s clamp, `maxFPS` unset, `skipTime`
unset) invokes the fixed-update callback exactly 2 times, and after the
drain `restDt` lies in `[0, 0.02)` (it is exactly 0.01). -/
theorem frameTick_fixed_step_drain :
    initSchedState.fixedDt = 1 / 50 ∧
    (frameTick none 8 (1 / 20) 0 0 0 initSchedState).2.2.2 = 2 ∧
    0 ≤ (frameTick none 8 (1 / 20) 0 0 0 initSchedState).1.restDt ∧
    (frameTick none 8 (1 / 20) 0 0 0 initSchedState).1.restDt < 1 / 50 := by
  refine ⟨rfl, ?_, ?_, ?_⟩ <;>
    norm_num [frameTick, drainLoop, jsMin, initSchedState]

/-!
Audio playback handles.  `SoundState` embeds the closure state of
`play` in `src/audio/play.ts`; `MusicState` embeds the closure state of
`playMusic` (unnamed audio source).  `Date.now()` becomes the explicit
`now : ℚ` argument (milliseconds).  `setTimeout(scheduleNextChunk, ...)`
/ `clearTimeout(playbackId)` become the `timerActive` flag: while the
flag is set the device timer keeps invoking the chunk renderer, which is
modelled separately below (`renderChunk`); the synchronous first
`scheduleNextChunk()` call inside `startPlayback` is the first of those
timer-driven invocations.  `onEndEvents.trigger()` calls are counted by
the `endCount` instrumentation field. -/

/-- JS truncation toward zero (the rounding used by the JS `%`
remainder). -/
def jsTrunc (q : ℚ) : ℤ := if 0 ≤ q then ⌊q⌋ else ⌈q⌉

/-- JS `%` remainder on finite numbers: `a - b * trunc(a / b)`. -/
def jsMod (a b : ℚ) : ℚ := a - b * jsTrunc (a / b)

/-- Closure state of a sound playback handle created by `play`
(`src/audio/play.ts`): the mutable `let` bindings of the closure. -/
structure SoundState where
  paused : Bool
  volume : ℚ
  pan : ℚ
  speed : ℚ
  detune : ℚ
  loop : Bool
  seekPos : ℚ
  audioBuffer : Option (List ℚ)
  sampleRate : ℚ
  channels : ℕ
  playbackPosition : ℚ
  startTime : ℚ
  pauseTime : ℚ
  isPlaying : Bool
  timerActive : Bool
  endCount : ℕ
deriving DecidableEq

/-- `stopPlayback` (`src/audio/play.ts`): clears the pending timer and
the playing flag (the `device.clearQueue()` side effect on the external
device is outside the handle's state). -/
def soundStopPlayback (st : SoundState) : SoundState :=
  { st with timerActive := false, isPlaying := false }

/-- `startPlayback` (`src/audio/play.ts`): no-op unless a buffer is
decoded and the handle is not already playing; otherwise marks playing,
stamps `startTime = Date.now()`, resets the cursor to `seekPos *
sampleRate`, and starts the chunk-render timer chain. -/
def soundStartPlayback (st : SoundState) (now : ℚ) : SoundState :=
  match st.audioBuffer with
  | none => st
  | some _ =>
    if st.isPlaying then st
    else
      { st with
        isPlaying := true
        startTime := now
        playbackPosition := st.seekPos * st.sampleRate
        timerActive := true }

/-- `getTime` (`src/audio/play.ts`): wall-clock derived playing time in
seconds; `t` and `d` are in milliseconds. -/
def soundGetTime (st : SoundState) (now : ℚ) : ℚ :=
  match st.audioBuffer with
  | none => 0
  | some buf =>
    let t := if st.paused then st.pauseTime - st.startTime else now - st.startTime
    let d := ((buf.length : ℚ) / (st.channels : ℚ) / st.sampleRate) * 1000
    if st.loop then jsMod t d / 1000 else jsMin (t / 1000) (d / 1000)

/-- `duration()` (`src/audio/play.ts`). -/
def soundDuration (st : SoundState) : ℚ :=
  match st.audioBuffer with
  | none => 0
  | some buf => (buf.length : ℚ) / (st.channels : ℚ) / st.sampleRate

/-- `seek(time)` (`src/audio/play.ts`): no-op before decode or when
`time > duration`; otherwise stores the seek position, moves the cursor,
and when not paused restarts the render chain from the new position. -/
def soundSeek (st : SoundState) (t now : ℚ) : SoundState :=
  match st.audioBuffer with
  | none => st
  | some buf =>
    let dur := (buf.length : ℚ) / (st.channels : ℚ) / st.sampleRate
    if dur < t then st
    else
      let st1 := { st with seekPos := t, playbackPosition := t * st.sampleRate }
      if st1.paused then st1
      else
        let st2 := soundStopPlayback st1
        let st3 := { st2 with startTime := now }
        soundStartPlayback st3 now

/-- `set paused` (`src/audio/play.ts`): pausing stops the timer and
stamps `pauseTime`; resuming shifts `startTime` by the paused span and
calls `startPlayback` (which overwrites `startTime` again and resets the
cursor to `seekPos * sampleRate`). -/
def soundSetPaused (st : SoundState) (p : Bool) (now : ℚ) : SoundState :=
  if st.paused = p then st
  else if p then
    { soundStopPlayback { st with paused := p } with pauseTime := now }
  else
    let elapsed := st.pauseTime - st.startTime
    soundStartPlayback { st with paused := p, startTime := now - elapsed } now

/-- `set volume` (`src/audio/play.ts`): `volume = Math.max(val, 0)`. -/
def soundSetVolume (st : SoundState) (v : ℚ) : SoundState :=
  { st with volume := jsMax v 0 }

/-- Modelled from the spec: the `math/clamp` helper imported by the
music handle is not among the provided sources.  The spec bounds volume
by "0..1" and pan by "-1..1", so `clamp v lo hi` restricts `v` to the
closed interval `[lo, hi]`. -/
def clamp (v lo hi : ℚ) : ℚ := jsMin (jsMax v lo) hi

theorem clamp_eq_of_mem (v lo hi : ℚ) (h0 : lo ≤ v) (h1 : v ≤ hi) :
    clamp v lo hi = v := by
  rw [clamp, jsMin_eq_min, jsMax_eq_max, max_eq_left h0, min_eq_left h1]

/-- Closure state of a music playback handle created by `playMusic`
(unnamed audio source): the mutable `let` bindings of the closure. -/
structure MusicState where
  isPlaying : Bool
  isPaused : Bool
  currentTime : ℚ
  duration : ℚ
  looping : Bool
  volume : ℚ
  playbackRate : ℚ
  audioData : Option (List ℚ)
  sampleRate : ℚ
  channels : ℕ
  playbackPosition : ℚ
  isLoaded : Bool
  timerActive : Bool
  endCount : ℕ
deriving DecidableEq

/-- Music `stopPlayback`: clears the pending timer and the playing
flag. -/
def musicStopPlayback (st : MusicState) : MusicState :=
  { st with timerActive := false, isPlaying := false }

/-- Music internal `play()`: after the `resumeAudioCtx()` no-op, returns
unless loaded; marks playing and starts the chunk-render timer chain if
not already playing.  The playback cursor is not touched. -/
def musicPlay (st : MusicState) : MusicState :=
  if st.isLoaded = false then st
  else if st.isPlaying then st
  else { st with isPlaying := true, timerActive := true }

/-- Music `seek(time)`: no-op before decode; otherwise clamps into
`[0, duration]`, stores `currentTime`, and moves the cursor. -/
def musicSeek (st : MusicState) (t : ℚ) : MusicState :=
  match st.audioData with
  | none => st
  | some _ =>
    let ct := clamp t 0 st.duration
    { st with currentTime := ct, playbackPosition := ct * st.sampleRate }

/-- Music `time()`: returns the stored `currentTime`. -/
def musicTime (st : MusicState) : ℚ := st.currentTime

/-- Music `set paused`: pausing stops the timer; resuming calls the
internal `play()`. -/
def musicSetPaused (st : MusicState) (p : Bool) : MusicState :=
  if p = st.isPaused then st
  else
    let st1 := { st with isPaused := p }
    if p then musicStopPlayback st1 else musicPlay st1

/-- Music `set volume`: `volume = clamp(val, 0, 1)`. -/
def musicSetVolume (st : MusicState) (v : ℚ) : MusicState :=
  { st with volume := clamp v 0 1 }

/-- Sound handle created with `paused: true` over a decoded 4-frame mono
buffer at 4 samples/s (duration 1s): the state right after `start`
ran with `paused` set, so playback never started. -/
def pausedSoundSt : SoundState :=
  { paused := true
    volume := 1
    pan := 0
    speed := 1
    detune := 0
    loop := false
    seekPos := 0
    audioBuffer := some [0, 0, 0, 0]
    sampleRate := 4
    channels := 1
    playbackPosition := 0
    startTime := 0
    pauseTime := 0
    isPlaying := false
    timerActive := false
    endCount := 0 }

/-- C1 counterexample: on the paused sound handle `pausedSoundSt`
(duration 1s, one sample = 1/4 s), `seek(1/2)` followed immediately by
`time()` does not report 1/2 within one sample's precision — `time()` is
derived from wall-clock stamps that `seek` never updates, and still
reports 0. -/
theorem soundSeek_time_roundtrip_fails :
    pausedSoundSt.paused = true ∧
    (0 : ℚ) ≤ 1 / 2 ∧ (1 / 2 : ℚ) ≤ soundDuration pausedSoundSt ∧
    ¬ (|soundGetTime (soundSeek pausedSoundSt (1 / 2) 0) 0 - 1 / 2|
        ≤ 1 / pausedSoundSt.sampleRate) := by
  refine ⟨rfl, by norm_num, by norm_num [soundDuration, pausedSoundSt], ?_⟩
  norm_num [soundSeek, soundGetTime, soundStopPlayback, soundStartPlayback,
    jsMin, pausedSoundSt]
  rw [abs_of_nonneg (by norm_num : (0 : ℚ) ≤ 1 / 2)]
  norm_num

/-- C1 (amended): the `seek`/`time` round-trip holds exactly for the
music handle — with decoded data and `0 ≤ t ≤ duration`, `seek(t)` then
`time()` reports exactly `t` — while for a paused sound handle `time()`
is wall-clock based and `seek` leaves its value unchanged (the
round-trip fails there; `time()` keeps returning its pre-seek value). -/
theorem seek_time_roundtrip_amended (mst : MusicState) (d : List ℚ) (t : ℚ)
    (sst : SoundState) (u now : ℚ)
    (hd : mst.audioData = some d) (h0 : 0 ≤ t) (h1 : t ≤ mst.duration)
    (hp : sst.paused = true) :
    musicTime (musicSeek mst t) = t ∧
    soundGetTime (soundSeek sst u now) now = soundGetTime sst now := by
  constructor
  · rw [musicSeek, hd]
    simp [musicTime, clamp_eq_of_mem t 0 mst.duration h0 h1]
  · rw [soundSeek]
    cases hb : sst.audioBuffer with
    | none => rfl
    | some buf =>
      by_cases hdur : (buf.length : ℚ) / (sst.channels : ℚ) / sst.sampleRate < u
      · simp [hdur]
      · simp only [hdur, if_false, hp, if_true]
        rw [soundGetTime, soundGetTime, hb]
        simp [hp]

/-- Music handle with a decoded 2-frame mono buffer at 1 sample/s
(duration 2s), paused. -/
def pausedMusicSt : MusicState :=
  { isPlaying := false
    isPaused := true
    currentTime := 0
    duration := 2
    looping := false
    volume := 1
    playbackRate := 1
    audioData := some [0, 0]
    sampleRate := 1
    channels := 1
    playbackPosition := 0
    isLoaded := true
    timerActive := false
    endCount := 0 }

/-- Witness for the amended C1 theorem at concrete handles. -/
theorem seek_time_roundtrip_amended_witness :
    pausedMusicSt.audioData = some [0, 0] ∧ (0 : ℚ) ≤ 1 ∧
    (1 : ℚ) ≤ pausedMusicSt.duration ∧ pausedSoundSt.paused = true ∧
    (musicTime (musicSeek pausedMusicSt 1) = 1 ∧
      soundGetTime (soundSeek pausedSoundSt (1 / 2) 5) 5
        = soundGetTime pausedSoundSt 5) :=
  ⟨rfl, by norm_num, by norm_num [pausedMusicSt], rfl,
    seek_time_roundtrip_amended pausedMusicSt [0, 0] 1 pausedSoundSt (1 / 2) 5
      rfl (by norm_num) (by norm_num [pausedMusicSt]) rfl⟩

/-- Sound handle mid-playback: decoded 4-frame mono buffer at 4
samples/s, cursor at sample 2, playing, stored seek position 0. -/
def playingSoundSt : SoundState :=
  { paused := false
    volume := 1
    pan := 0
    speed := 1
    detune := 0
    loop := false
    seekPos := 0
    audioBuffer := some [0, 0, 0, 0]
    sampleRate := 4
    channels := 1
    playbackPosition := 2
    startTime := 0
    pauseTime := 0
    isPlaying := true
    timerActive := true
    endCount := 0 }

/-- C2 counterexample: pausing the sound handle `playingSoundSt` (cursor
at sample 2) and resuming does not preserve the cursor — `startPlayback`
resets it to `seekPos * sampleRate = 0`. -/
theorem soundSetPaused_resume_resets_cursor :
    (soundSetPaused playingSoundSt true 1000).playbackPosition = 2 ∧
    (soundSetPaused (soundSetPaused playingSoundSt true 1000) false 2000).playbackPosition
      ≠ 2 := by
  constructor <;>
    norm_num [soundSetPaused, soundStopPlayback, soundStartPlayback,
      playingSoundSt]

/-- C2 (amended): toggling `paused` on→off cancels the render timer on
pause and reschedules it on resume, for both handle kinds; the music
handle resumes with the cursor exactly where it was at the moment of
pausing, but the sound handle resumes with the cursor reset to the
stored seek position `seekPos * sampleRate`. -/
theorem paused_toggle_amended (sst : SoundState) (buf : List ℚ)
    (now1 now2 : ℚ) (mst : MusicState)
    (hb : sst.audioBuffer = some buf) (hp : sst.paused = false)
    (hpl : sst.isPlaying = true)
    (hmp : mst.isPaused = false) (hml : mst.isPlaying = true)
    (hld : mst.isLoaded = true) :
    ((soundSetPaused sst true now1).timerActive = false ∧
      (soundSetPaused sst true now1).playbackPosition = sst.playbackPosition ∧
      (soundSetPaused (soundSetPaused sst true now1) false now2).timerActive
        = true ∧
      (soundSetPaused (soundSetPaused sst true now1) false now2).playbackPosition
        = sst.seekPos * sst.sampleRate) ∧
    ((musicSetPaused mst true).timerActive = false ∧
      (musicSetPaused mst true).playbackPosition = mst.playbackPosition ∧
      (musicSetPaused (musicSetPaused mst true) false).timerActive = true ∧
      (musicSetPaused (musicSetPaused mst true) false).playbackPosition
        = mst.playbackPosition) := by
  constructor
  · simp only [soundSetPaused, soundStopPlayback, soundStartPlayback, hp,
      hb, hpl]
    norm_num
  · simp only [musicSetPaused, musicStopPlayback, musicPlay, hmp, hml, hld]
    norm_num

/-- Music handle mid-playback: loaded, playing, cursor at sample 1. -/
def playingMusicSt : MusicState :=
  { isPlaying := true
    isPaused := false
    currentTime := 1
    duration := 2
    looping := false
    volume := 1
    playbackRate := 1
    audioData := some [0, 0]
    sampleRate := 1
    channels := 1
    playbackPosition := 1
    isLoaded := true
    timerActive := true
    endCount := 0 }

/-- Witness for the amended C2 theorem at concrete handles. -/
theorem paused_toggle_amended_witness :
    playingSoundSt.audioBuffer = some [0, 0, 0, 0] ∧
    playingSoundSt.paused = false ∧ playingSoundSt.isPlaying = true ∧
    playingMusicSt.isPaused = false ∧ playingMusicSt.isPlaying = true ∧
    playingMusicSt.isLoaded = true ∧
    (((soundSetPaused playingSoundSt true 1000).timerActive = false ∧
      (soundSetPaused playingSoundSt true 1000).playbackPosition
        = playingSoundSt.playbackPosition ∧
      (soundSetPaused (soundSetPaused playingSoundSt true 1000) false 2000).timerActive
        = true ∧
      (soundSetPaused (soundSetPaused playingSoundSt true 1000) false 2000).playbackPosition
        = playingSoundSt.seekPos * playingSoundSt.sampleRate) ∧
    ((musicSetPaused playingMusicSt true).timerActive = false ∧
      (musicSetPaused playingMusicSt true).playbackPosition
        = playingMusicSt.playbackPosition ∧
      (musicSetPaused (musicSetPaused playingMusicSt true) false).timerActive
        = true ∧
      (musicSetPaused (musicSetPaused playingMusicSt true) false).playbackPosition
        = playingMusicSt.playbackPosition)) :=
  ⟨rfl, rfl, rfl, rfl, rfl, rfl,
    paused_toggle_amended playingSoundSt [0, 0, 0, 0] 1000 2000 playingMusicSt
      rfl rfl rfl rfl rfl rfl⟩

/-- C6 counterexample: writing 2 to a sound handle's `volume` stores 2 —
the sound handle's setter is `Math.max(val, 0)` and does not clamp from
above, so the stored volume escapes `[0, 1]`. -/
theorem soundSetVolume_exceeds_one :
    (soundSetVolume playingSoundSt 2).volume = 2 ∧
    ¬ ((soundSetVolume playingSoundSt 2).volume ≤ 1) := by
  constructor <;> norm_num [soundSetVolume, jsMax, playingSoundSt]

/-- C6 (amended): the music handle's volume setter clamps the written
value into `[0, 1]`; the sound handle's setter only clamps from below —
it stores exactly `max(val, 0)`, which is nonnegative but may exceed
1. -/
theorem setVolume_clamp_amended (sst : SoundState) (mst : MusicState)
    (v : ℚ) :
    (soundSetVolume sst v).volume = jsMax v 0 ∧
    0 ≤ (soundSetVolume sst v).volume ∧
    0 ≤ (musicSetVolume mst v).volume ∧
    (musicSetVolume mst v).volume ≤ 1 := by
  refine ⟨rfl, ?_, ?_, ?_⟩
  · show (0 : ℚ) ≤ jsMax v 0
    rw [jsMax_eq_max]
    exact le_max_right v 0
  · show (0 : ℚ) ≤ clamp v 0 1
    rw [clamp, jsMin_eq_min, jsMax_eq_max]
    exact le_min (le_max_right v 0) zero_le_one
  · show clamp v 0 1 ≤ 1
    rw [clamp, jsMin_eq_min]
    exact min_le_right _ 1

/-- Sound handle used for the C10 witness: decoded 2-frame mono buffer
at 1 sample/s, so `duration = 2`. -/
def shortSoundSt : SoundState :=
  { paused := false
    volume := 1
    pan := 0
    speed := 1
    detune := 0
    loop := false
    seekPos := 0
    audioBuffer := some [0, 0]
    sampleRate := 1
    channels := 1
    playbackPosition := 0
    startTime := 0
    pauseTime := 0
    isPlaying := true
    timerActive := true
    endCount := 0 }

/-- C10: `seek(t)` with `t` strictly beyond the decoded buffer's
duration is a silent no-op — the whole handle state (cursor, stored seek
position, pause flag, timer) is returned unchanged (and `seek` is a
total function, so no error is raised); likewise `seek` before the
buffer has decoded is a no-op. -/
theorem soundSeek_out_of_range_noop (st : SoundState) (t now : ℚ) :
    (∀ buf : List ℚ, st.audioBuffer = some buf →
      soundDuration st < t → soundSeek st t now = st) ∧
    (st.audioBuffer = none → soundSeek st t now = st) := by
  constructor
  · intro buf hb hlt
    rw [soundDuration, hb] at hlt
    rw [soundSeek, hb]
    simp [hlt]
  · intro hb
    rw [soundSeek, hb]

/-- Witness for the C10 theorem: seeking to 5s in a 2s buffer changes
nothing. -/
theorem soundSeek_out_of_range_noop_witness :
    shortSoundSt.audioBuffer = some [0, 0] ∧
    soundDuration shortSoundSt < 5 ∧
    soundSeek shortSoundSt 5 7 = shortSoundSt :=
  ⟨rfl, by norm_num [soundDuration, shortSoundSt],
    (soundSeek_out_of_range_noop shortSoundSt 5 7).1 [0, 0] rfl
      (by norm_num [soundDuration, shortSoundSt])⟩

/-!
Chunk renderer of the sound handle (`scheduleNextChunk` in
`src/audio/play.ts`).  The `for (let i = 0; i < chunkSize; i +=
deviceChannels)` loop is embedded as `chunkLoop`, structural on the
number of remaining loop iterations (`chunkSize / deviceChannels`, i.e.
2048 when `deviceChannels > 0` and 0 otherwise, since `chunkSize = 2048
* deviceChannels`).  The chunk `Float32Array` starts zero-initialised,
so a loop-wrap `continue` leaves its frame slot zero and the `break` on
end leaves the whole remainder zero; `chunkLoop` builds the chunk as an
explicit sample list and additionally reports whether the end branch
fired (`endFired`, one `onEndEvents.trigger()` call) and how many
trailing samples were zero-filled by the break (`zeroTail`).  Device
parameters (`device.channels`, `_k.audio.masterVolume`) are passed
explicitly; `device.enqueue` is the returned sample list and the
`setTimeout` rescheduling is the `timerActive` flag. -/

/-- JS indexing `buf[i] || 0`: out-of-range (or negative) indices read
`undefined`, which `|| 0` turns into 0. -/
def jsIdx (l : List ℚ) (i : ℤ) : ℚ :=
  if 0 ≤ i then l.getD i.toNat 0 else 0

/-- Per-frame gain application of `scheduleNextChunk`: for a stereo
device, `leftGain = volume * (1 - Math.max(0, pan))` and `rightGain =
volume * (1 + Math.min(0, pan))` scale the two source samples together
with the master volume; otherwise the two source channels are averaged
into the single written sample (slots skipped by `i += deviceChannels`
stay zero). -/
def renderFrame (leftSample rightSample volume pan master : ℚ)
    (deviceChannels : ℕ) : List ℚ :=
  if deviceChannels = 2 then
    let leftGain := volume * (1 - jsMax 0 pan)
    let rightGain := volume * (1 + jsMin 0 pan)
    [leftSample * leftGain * master, rightSample * rightGain * master]
  else
    ((leftSample + rightSample) / 2) * volume * master
      :: List.replicate (deviceChannels - 1) 0

/-- Result of one run of the chunk-filling loop: the samples written to
the chunk, the final playback cursor, whether the end branch fired, and
the number of trailing samples the `break` left zero-filled. -/
structure ChunkRes where
  samples : List ℚ
  pos : ℚ
  endFired : Bool
  zeroTail : ℕ
deriving DecidableEq

/-- The chunk-filling loop of `scheduleNextChunk`: at each iteration
read the truncated cursor, and either wrap to 0 (`loop` on), or mark
ended / fire "end" / zero-fill the rest and break (`loop` off), or write
one gain-scaled frame and advance the cursor by `speed`. -/
def chunkLoop (buf : List ℚ) (channels : ℕ) (loopB : Bool)
    (speed volume pan master : ℚ) (dc : ℕ) : ℕ → ℚ → ChunkRes
  | 0, pos => ⟨[], pos, false, 0⟩
  | n + 1, pos =>
    let si : ℤ := ⌊pos⌋ * channels
    if (buf.length : ℤ) ≤ si then
      if loopB then
        let r := chunkLoop buf channels loopB speed volume pan master dc n 0
        ⟨List.replicate dc 0 ++ r.samples, r.pos, r.endFired, r.zeroTail⟩
      else
        ⟨List.replicate ((n + 1) * dc) 0, pos, true, (n + 1) * dc⟩
    else
      let ls := jsIdx buf si
      let rs := if 1 < channels then jsIdx buf (si + 1) else ls
      let r := chunkLoop buf channels loopB speed volume pan master dc n
        (pos + speed)
      ⟨renderFrame ls rs volume pan master dc ++ r.samples, r.pos,
        r.endFired, r.zeroTail⟩

/-- One invocation of `scheduleNextChunk` on a sound handle: early
return (delivering nothing) unless a buffer is decoded and the handle is
playing; otherwise fill one chunk, update the cursor/playing flag, count
an "end" trigger if the end branch fired, enqueue the chunk and keep the
timer chain alive. -/
def renderChunk (dc : ℕ) (master : ℚ) (st : SoundState) :
    SoundState × Option ChunkRes :=
  match st.audioBuffer with
  | none => (st, none)
  | some buf =>
    if st.isPlaying then
      let frames := if dc = 0 then 0 else 2048
      let r := chunkLoop buf st.channels st.loop st.speed st.volume st.pan
        master dc frames st.playbackPosition
      ({ st with
          playbackPosition := r.pos
          isPlaying := !r.endFired
          endCount := st.endCount + (if r.endFired then 1 else 0)
          timerActive := true },
        some r)
    else (st, none)

/-- Iterate the render-timer chain `n` times, collecting what each
invocation delivered to the device queue (`none` = the guard returned
early and nothing was enqueued). -/
def runChunks (dc : ℕ) (master : ℚ) : ℕ → SoundState → SoundState × List (Option ChunkRes)
  | 0, st => (st, [])
  | n + 1, st =>
    let p := renderChunk dc master st
    let rest := runChunks dc master n p.1
    (rest.1, p.2 :: rest.2)

/-- C9: per-frame gain law of the chunk renderer.  For a stereo (2
channel) output device the left sample is the source left sample times
`volume * (1 - max 0 pan)` times the master volume, and the right sample
is the source right sample times `volume * (1 + min 0 pan)` times the
master volume; in particular with `pan = 1` and `volume = 1` the left
gain is 0 and the right sample passes through unattenuated (scaled only
by the master volume).  For a mono output device the two source channels
are mixed down by averaging. -/
theorem renderFrame_gain (l r volume pan master : ℚ) :
    renderFrame l r volume pan master 2
      = [l * (volume * (1 - max 0 pan)) * master,
          r * (volume * (1 + min 0 pan)) * master] ∧
    renderFrame l r 1 1 master 2 = [0, r * master] ∧
    renderFrame l r volume pan master 1 = [(l + r) / 2 * volume * master] := by
  refine ⟨?_, ?_, ?_⟩
  · rw [renderFrame, jsMax_eq_max, jsMin_eq_min]
    norm_num
  · rw [renderFrame]
    norm_num [jsMax, jsMin]
  · rw [renderFrame]
    norm_num

theorem renderChunk_not_playing (dc : ℕ) (master : ℚ) (st : SoundState)
    (h : st.isPlaying = false) : renderChunk dc master st = (st, none) := by
  cases hb : st.audioBuffer with
  | none => rw [renderChunk, hb]
  | some buf => rw [renderChunk, hb]; simp [h]

theorem runChunks_not_playing (dc : ℕ) (master : ℚ) (n : ℕ) (st : SoundState)
    (h : st.isPlaying = false) :
    runChunks dc master n st = (st, List.replicate n none) := by
  induction n with
  | zero => rfl
  | succ m ih =>
    rw [runChunks, renderChunk_not_playing dc master st h]
    simp [ih, List.replicate_succ]

theorem drop_append_sub (a s : List ℚ) (z : ℕ) (hz : z ≤ s.length)
    (hs : s.drop (s.length - z) = List.replicate z 0) :
    z ≤ (a ++ s).length ∧
    (a ++ s).drop ((a ++ s).length - z) = List.replicate z 0 := by
  constructor
  · rw [List.length_append]; omega
  · have h1 : (a ++ s).length - z = a.length + (s.length - z) := by
      rw [List.length_append]; omega
    rw [h1, List.drop_append, hs]

theorem chunkLoop_zeroTail_spec (buf : List ℚ) (ch : ℕ) (lb : Bool)
    (speed volume pan master : ℚ) (dc : ℕ) :
    ∀ (f : ℕ) (pos : ℚ),
      (chunkLoop buf ch lb speed volume pan master dc f pos).zeroTail
        ≤ (chunkLoop buf ch lb speed volume pan master dc f pos).samples.length ∧
      (chunkLoop buf ch lb speed volume pan master dc f pos).samples.drop
          ((chunkLoop buf ch lb speed volume pan master dc f pos).samples.length
            - (chunkLoop buf ch lb speed volume pan master dc f pos).zeroTail)
        = List.replicate
            (chunkLoop buf ch lb speed volume pan master dc f pos).zeroTail 0 := by
  intro f
  induction f with
  | zero => intro pos; simp [chunkLoop]
  | succ n ih =>
    intro pos
    rw [chunkLoop]
    by_cases hsi : (buf.length : ℤ) ≤ ⌊pos⌋ * ch
    · rw [if_pos hsi]
      cases lb with
      | true =>
        simp only [if_true]
        exact drop_append_sub _ _ _ (ih 0).1 (ih 0).2
      | false =>
        simp only [if_false]
        simp
    · rw [if_neg hsi]
      exact drop_append_sub _ _ _ (ih (pos + speed)).1 (ih (pos + speed)).2

theorem chunkLoop_no_end (buf : List ℚ) (ch : ℕ) (volume pan master : ℚ)
    (dc : ℕ) :
    ∀ (f : ℕ) (pos : ℚ),
      (chunkLoop buf ch false 1 volume pan master dc f pos).endFired = false →
      (chunkLoop buf ch false 1 volume pan master dc f pos).pos = pos + f ∧
      (chunkLoop buf ch false 1 volume pan master dc f pos).zeroTail = 0 := by
  intro f
  induction f with
  | zero => intro pos _; simp [chunkLoop]
  | succ n ih =>
    intro pos h
    rw [chunkLoop] at h ⊢
    by_cases hsi : (buf.length : ℤ) ≤ ⌊pos⌋ * ch
    · rw [if_pos hsi] at h
      simp at h
    · rw [if_neg hsi] at h ⊢
      obtain ⟨h1, h2⟩ := ih (pos + 1) h
      refine ⟨?_, h2⟩
      rw [h1]
      push_cast
      ring

theorem chunkLoop_end_immediate (buf : List ℚ) (ch : ℕ)
    (speed volume pan master : ℚ) (dc n : ℕ) (pos : ℚ)
    (hch : 1 ≤ ch) (hle : (buf.length : ℚ) ≤ pos) :
    (chunkLoop buf ch false speed volume pan master dc (n + 1) pos).endFired
      = true := by
  have hfloor : (buf.length : ℤ) ≤ ⌊pos⌋ := by
    rw [Int.le_floor]
    exact_mod_cast hle
  have hpos0 : (0 : ℤ) ≤ ⌊pos⌋ := le_trans (by positivity) hfloor
  have hsi : (buf.length : ℤ) ≤ ⌊pos⌋ * ch := by
    calc (buf.length : ℤ) ≤ ⌊pos⌋ := hfloor
    _ = ⌊pos⌋ * 1 := by ring
    _ ≤ ⌊pos⌋ * ch := by
        apply mul_le_mul_of_nonneg_left _ hpos0
        exact_mod_cast hch
  rw [chunkLoop, if_pos hsi]
  simp

theorem renderChunk_playing_fields (dc : ℕ) (master : ℚ) (buf : List ℚ)
    (st : SoundState) (hb : st.audioBuffer = some buf)
    (hplay : st.isPlaying = true) (hdc : 1 ≤ dc) :
    ∃ r : ChunkRes,
      r = chunkLoop buf st.channels st.loop st.speed st.volume st.pan master
        dc 2048 st.playbackPosition ∧
      (renderChunk dc master st).2 = some r ∧
      (renderChunk dc master st).1.audioBuffer = st.audioBuffer ∧
      (renderChunk dc master st).1.loop = st.loop ∧
      (renderChunk dc master st).1.speed = st.speed ∧
      (renderChunk dc master st).1.channels = st.channels ∧
      (renderChunk dc master st).1.playbackPosition = r.pos ∧
      (renderChunk dc master st).1.isPlaying = !r.endFired ∧
      (renderChunk dc master st).1.endCount
        = st.endCount + (if r.endFired then 1 else 0) := by
  have hdc0 : ¬ (dc = 0) := by omega
  refine ⟨chunkLoop buf st.channels st.loop st.speed st.volume st.pan master
    dc 2048 st.playbackPosition, rfl, ?_, ?_, ?_, ?_, ?_, ?_, ?_, ?_⟩ <;>
    rw [renderChunk, hb] <;> simp [hplay, hdc0]

theorem runChunks_zero (dc : ℕ) (master : ℚ) (st : SoundState) :
    runChunks dc master 0 st = (st, []) := rfl

theorem runChunks_succ (dc : ℕ) (master : ℚ) (n : ℕ) (st : SoundState) :
    runChunks dc master (n + 1) st
      = ((runChunks dc master n (renderChunk dc master st).1).1,
          (renderChunk dc master st).2
            :: (runChunks dc master n (renderChunk dc master st).1).2) := rfl

theorem runChunks_end_once_aux (dc : ℕ) (master : ℚ) (buf : List ℚ)
    (hdc : 1 ≤ dc) :
    ∀ (m : ℕ) (st : SoundState),
      st.audioBuffer = some buf → st.loop = false → st.speed = 1 →
      st.isPlaying = true → 0 ≤ st.playbackPosition → 1 ≤ st.channels →
      (buf.length : ℚ) ≤ st.playbackPosition + 2048 * m →
      (runChunks dc master (m + 1) st).1.endCount = st.endCount + 1 ∧
      ∃ k, k ≤ m ∧
        (∃ r : ChunkRes,
          (runChunks dc master (m + 1) st).2.get? k = some (some r) ∧
          r.endFired = true ∧
          r.zeroTail ≤ r.samples.length ∧
          r.samples.drop (r.samples.length - r.zeroTail)
            = List.replicate r.zeroTail 0) ∧
        ∀ i, k < i → i < m + 1 →
          (runChunks dc master (m + 1) st).2.get? i = some none := by
  intro m
  induction m with
  | zero =>
    intro st hb hloop hspeed hplay hpos hch hbound
    obtain ⟨r, hrdef, ho, hbuf1, hloop1, hspeed1, hch1, hpos1, hplay1, hec1⟩ :=
      renderChunk_playing_fields dc master buf st hb hplay hdc
    have hle : (buf.length : ℚ) ≤ st.playbackPosition := by simpa using hbound
    have hEnd : r.endFired = true := by
      rw [hrdef, hloop, hspeed]
      exact chunkLoop_end_immediate buf st.channels 1 st.volume st.pan master
        dc 2047 st.playbackPosition hch hle
    have hz1 : r.zeroTail ≤ r.samples.length := by
      rw [hrdef]
      exact (chunkLoop_zeroTail_spec buf st.channels st.loop st.speed
        st.volume st.pan master dc 2048 st.playbackPosition).1
    have hz2 : r.samples.drop (r.samples.length - r.zeroTail)
        = List.replicate r.zeroTail 0 := by
      rw [hrdef]
      exact (chunkLoop_zeroTail_spec buf st.channels st.loop st.speed
        st.volume st.pan master dc 2048 st.playbackPosition).2
    rw [runChunks_succ, runChunks_zero]
    refine ⟨by rw [hec1, hEnd]; simp, 0, le_refl 0,
      ⟨r, by rw [ho]; rfl, hEnd, hz1, hz2⟩, ?_⟩
    intro i h0 h1
    omega
  | succ m ih =>
    intro st hb hloop hspeed hplay hpos hch hbound
    obtain ⟨r, hrdef, ho, hbuf1, hloop1, hspeed1, hch1, hpos1, hplay1, hec1⟩ :=
      renderChunk_playing_fields dc master buf st hb hplay hdc
    have hz1 : r.zeroTail ≤ r.samples.length := by
      rw [hrdef]
      exact (chunkLoop_zeroTail_spec buf st.channels st.loop st.speed
        st.volume st.pan master dc 2048 st.playbackPosition).1
    have hz2 : r.samples.drop (r.samples.length - r.zeroTail)
        = List.replicate r.zeroTail 0 := by
      rw [hrdef]
      exact (chunkLoop_zeroTail_spec buf st.channels st.loop st.speed
        st.volume st.pan master dc 2048 st.playbackPosition).2
    rw [runChunks_succ]
    by_cases hEnd : r.endFired = true
    · have hq : (renderChunk dc master st).1.isPlaying = false := by
        rw [hplay1, hEnd]
        rfl
      rw [runChunks_not_playing dc master (m + 1) _ hq]
      refine ⟨by rw [hec1, hEnd]; simp, 0, Nat.zero_le _,
        ⟨r, by rw [ho]; rfl, hEnd, hz1, hz2⟩, ?_⟩
      intro i h0 h1
      match i, h0 with
      | (j + 1), _ =>
        rw [ho]
        simp only [List.get?_eq_getElem?, List.getElem?_cons_succ]
        simp [List.getElem?_replicate]
        omega
    · have hEnd2 : r.endFired = false := by
        revert hEnd
        cases r.endFired <;> simp
      rw [hloop, hspeed] at hrdef
      have hadv : r.pos = st.playbackPosition + 2048 := by
        obtain ⟨h1, -⟩ := chunkLoop_no_end buf st.channels st.volume st.pan
          master dc 2048 st.playbackPosition (by rw [← hrdef]; exact hEnd2)
        rw [hrdef, h1]
        norm_num
      have ihap := ih (renderChunk dc master st).1
        (by rw [hbuf1]; exact hb)
        (by rw [hloop1]; exact hloop)
        (by rw [hspeed1]; exact hspeed)
        (by rw [hplay1, hEnd2]; rfl)
        (by rw [hpos1, hadv]; positivity)
        (by rw [hch1]; exact hch)
        (by
          rw [hpos1, hadv]
          push_cast at hbound ⊢
          linarith)
      obtain ⟨hec, k, hkm, ⟨r2, hget, hr2a, hr2b, hr2c⟩, hafter⟩ := ihap
      refine ⟨?_, k + 1, by omega, ⟨r2, ?_, hr2a, hr2b, hr2c⟩, ?_⟩
      · rw [hec, hec1, hEnd2]
        simp
      · rw [ho]
        simp only [List.get?_eq_getElem?, List.getElem?_cons_succ] at hget ⊢
        exact hget
      · intro i h0 h1
        match i, h0 with
        | (j + 1), _ =>
          rw [ho]
          have := hafter j (by omega) (by omega)
          simp only [List.get?_eq_getElem?, List.getElem?_cons_succ] at this ⊢
          exact this

/-- C5: for a sound handle with `loop = false` and `speed = 1` over a
finite decoded buffer, driving the chunk-render timer chain long enough
(`n ≥ buffer length + 1` invocations) fires the "end" notification
exactly once for the whole playback (`endCount` ends at 1): some
invocation `k` delivers the chunk in which the cursor ran past the end
of the buffer, the remainder of that chunk (its `zeroTail` trailing
samples, from the break point on) is zero-filled, and after that point
silence holds in the strongest sense — every later invocation hits the
`!isPlaying` guard and delivers nothing at all to the device queue (so
every sample delivered after the end, of which there are none, is
zero). -/
theorem sound_playback_end_fires_once (dc : ℕ) (master : ℚ) (buf : List ℚ)
    (st : SoundState) (n : ℕ)
    (hb : st.audioBuffer = some buf) (hloop : st.loop = false)
    (hspeed : st.speed = 1) (hplay : st.isPlaying = true)
    (hend0 : st.endCount = 0) (hpos : 0 ≤ st.playbackPosition)
    (hch : 1 ≤ st.channels) (hdc : 1 ≤ dc)
    (hn : buf.length + 1 ≤ n) :
    (runChunks dc master n st).1.endCount = 1 ∧
    ∃ k, k < n ∧
      (∃ r : ChunkRes,
        (runChunks dc master n st).2.get? k = some (some r) ∧
        r.endFired = true ∧
        r.zeroTail ≤ r.samples.length ∧
        r.samples.drop (r.samples.length - r.zeroTail)
          = List.replicate r.zeroTail 0) ∧
      ∀ i, k < i → i < n →
        (runChunks dc master n st).2.get? i = some none := by
  obtain ⟨m, rfl⟩ : ∃ m, n = m + 1 := ⟨n - 1, by omega⟩
  have hbound : (buf.length : ℚ) ≤ st.playbackPosition + 2048 * m := by
    have h1 : buf.length ≤ m := by omega
    have h2 : (buf.length : ℚ) ≤ (m : ℚ) := by exact_mod_cast h1
    have h3 : (m : ℚ) ≤ 2048 * m := by
      have hm0 : (0 : ℚ) ≤ (m : ℚ) := by positivity
      nlinarith
    linarith
  obtain ⟨hec, k, hkm, hr, hafter⟩ := runChunks_end_once_aux dc master buf hdc
    m st hb hloop hspeed hplay hpos hch hbound
  rw [hend0, Nat.zero_add] at hec
  exact ⟨hec, k, by omega, hr, hafter⟩

/-- Sound handle playing a decoded 1-frame mono buffer, used as the C5
witness input. -/
def endingSoundSt : SoundState :=
  { paused := false
    volume := 1
    pan := 0
    speed := 1
    detune := 0
    loop := false
    seekPos := 0
    audioBuffer := some [0]
    sampleRate := 1
    channels := 1
    playbackPosition := 0
    startTime := 0
    pauseTime := 0
    isPlaying := true
    timerActive := true
    endCount := 0 }

/-- Witness for the C5 theorem at a concrete handle: two timer
invocations on a 1-frame buffer end playback with exactly one "end"
trigger. -/
theorem sound_playback_end_fires_once_witness :
    endingSoundSt.audioBuffer = some [0] ∧ endingSoundSt.loop = false ∧
    endingSoundSt.speed = 1 ∧ endingSoundSt.isPlaying = true ∧
    endingSoundSt.endCount = 0 ∧ (0 : ℚ) ≤ endingSoundSt.playbackPosition ∧
    1 ≤ endingSoundSt.channels ∧ ([(0 : ℚ)].length + 1 ≤ 2) ∧
    (runChunks 1 1 2 endingSoundSt).1.endCount = 1 :=
  ⟨rfl, rfl, rfl, rfl, rfl, le_refl 0, le_refl 1, by norm_num,
    (sound_playback_end_fires_once 1 1 [0] endingSoundSt 2 rfl rfl rfl rfl rfl
      (le_refl 0) (le_refl 1) (le_refl 1) (by norm_num)).1⟩

/-!
Gamepad poller (unnamed app source, `function processGamepad`, button
part).  The per-gamepad button loop `for (let i = 0; i <
Object.keys(controller.buttons).length; i++)` is embedded as a fold of
`processGamepadButton` over the index range.  The device's button report
`controller.buttons` (a JS object mapping button names to booleans) is a
list of name/boolean pairs; `Object.keys(controller.buttons)` is the
list of names.  The source line `const isPressed =
Object.keys(controller.buttons)[i]` reads the i-th KEY NAME (a string)
— despite its `// This is a boolean` comment — so the embedded
`isPressed` is the JS truthiness of that string (nonempty = truthy); the
booleans of the report are never consulted.  `state.events.trigger`
calls are recorded in an `events` list. -/

/-- Event notifications emitted by the gamepad button loop. -/
inductive GEvent
  | gamepadButtonDown (b : String)
  | gamepadButtonPress (b : String)
  | gamepadButtonRelease (b : String)
  | buttonPress (b : String)
  | buttonRelease (b : String)
deriving DecidableEq

/-- The app-state slice the gamepad button loop touches: the merged
gamepad `ButtonState`, the polled gamepad's own `ButtonState`, the
virtual-button `ButtonState`, the last-input-device tag, and the emitted
notifications. -/
structure GPState where
  merged : ButtonState String
  pad : ButtonState String
  virt : ButtonState String
  lastInputDevice : Option String
  events : List GEvent
deriving DecidableEq

/-- One iteration of the button loop at index `i`: skip if the mapping
has no (truthy) name for `i`; compute `isPressed` as the truthiness of
`Object.keys(controller.buttons)[i]` (the source's actual expression);
then branch into the down / press / release paths, fanning press and
release out through the `buttonsByGamepad` binding index. -/
def processGamepadButton (byGamepad : String → Option (List String))
    (mapButtons : ℕ → Option String) (keys : List String)
    (st : GPState) (i : ℕ) : GPState :=
  match mapButtons i with
  | none => st
  | some gamepadBtn =>
    if gamepadBtn = "" then st
    else
      let isPressed := decide (¬ keys.getD i "" = "")
      let isBind := (byGamepad gamepadBtn).isSome
      if isPressed then
        if gamepadBtn ∈ st.pad.down then
          { st with
            events := st.events ++ [GEvent.gamepadButtonDown gamepadBtn] }
        else
          let st1 := { st with lastInputDevice := some "gamepad" }
          let st2 :=
            if isBind then
              ((byGamepad gamepadBtn).getD []).foldl
                (fun s btn =>
                  { s with
                    virt := s.virt.press btn
                    events := s.events ++ [GEvent.buttonPress btn] }) st1
            else st1
          { st2 with
            merged := st2.merged.press gamepadBtn
            pad := st2.pad.press gamepadBtn
            events := st2.events ++ [GEvent.gamepadButtonPress gamepadBtn] }
      else if gamepadBtn ∈ st.pad.down then
        let st2 :=
          if isBind then
            ((byGamepad gamepadBtn).getD []).foldl
              (fun s btn =>
                { s with
                  virt := s.virt.release btn
                  events := s.events ++ [GEvent.buttonRelease btn] }) st
          else st
        { st2 with
          merged := st2.merged.release gamepadBtn
          pad := st2.pad.release gamepadBtn
          events := st2.events ++ [GEvent.gamepadButtonRelease gamepadBtn] }
      else st

/-- The whole button loop over one polled gamepad's report. -/
def processGamepadButtons (byGamepad : String → Option (List String))
    (mapButtons : ℕ → Option String)
    (deviceButtons : List (String × Bool)) (st : GPState) : GPState :=
  (List.range (deviceButtons.map Prod.fst).length).foldl
    (processGamepadButton byGamepad mapButtons (deviceButtons.map Prod.fst))
    st

/-- No virtual-button bindings for any gamepad button. -/
def noBindings : String → Option (List String) := fun _ => none

/-- Mapping table binding physical button index 0 to the logical button
"south". -/
def southMapButtons : ℕ → Option String :=
  fun i => if i = 0 then some "south" else none

/-- Poller state in which "south" is held down on both the per-gamepad
and the merged button state. -/
def southDownGPState : GPState :=
  { merged := ⟨[], [], [], ["south"]⟩
    pad := ⟨[], [], [], ["south"]⟩
    virt := ⟨[], [], [], []⟩
    lastInputDevice := none
    events := [] }

/-- C3 (evaluating the defect): the device reports its only button,
key "a" at index 0, as NOT pressed (`false`) while "south" is in the
per-gamepad down set.  The claim requires the poller to release "south"
on the merged and per-gamepad states and emit a "gamepad button release"
notification.  Instead the loop computes `isPressed` from the key string
"a" (truthy), takes the pressed-and-already-down branch, emits only
"gamepad button down", and leaves "south" down everywhere: the release
branch is unreachable for any device whose button names are nonempty
strings. -/
theorem processGamepad_release_branch_dead :
    processGamepadButtons noBindings southMapButtons [("a", false)]
        southDownGPState
      = { southDownGPState with
          events := [GEvent.gamepadButtonDown "south"] } ∧
    "south" ∈ (processGamepadButtons noBindings southMapButtons [("a", false)]
        southDownGPState).pad.down ∧
    "south" ∈ (processGamepadButtons noBindings southMapButtons [("a", false)]
        southDownGPState).merged.down ∧
    GEvent.gamepadButtonRelease "south"
      ∉ (processGamepadButtons noBindings southMapButtons [("a", false)]
        southDownGPState).events := by
  refine ⟨?_, ?_, ?_, ?_⟩ <;> decide
